import Mathlib

set_option maxHeartbeats 1000000

namespace EventSphere

/-- Event lifecycle status stored on an event document (schema enum
Past, Upcoming, Live). -/
inductive EvStatus
  | Past
  | Upcoming
  | Live
deriving DecidableEq, Repr

/-- Per-participant roster status (participants subdocument enum). -/
inductive PStatus
  | registered
  | attended
  | completed
  | cancelled
deriving DecidableEq, Repr

/-- Ledger registration status (registrationSchema enum). -/
inductive RStatus
  | pending
  | confirmed
  | rejected
  | cancelled
deriving DecidableEq, Repr

/-- One entry of the embedded participants roster on an event. -/
structure RosterEntry where
  userId : Nat
  pstatus : PStatus
  attendanceMarked : Bool
deriving DecidableEq, Repr

/-- The event document fields used by the registration subsystem.  The
counters are integers because the source decrements some of them without
clamping. -/
structure Event where
  maxParticipants : Nat
  currentParticipants : Int
  registrations : Int
  attendance : Int
  startDate : Int
  endDate : Int
  registrationDeadline : Int
  status : EvStatus
  isActive : Bool
  participants : List RosterEntry
deriving DecidableEq, Repr

/-- A registration ledger document of one event (Registration collection);
the event reference is implicit because the state below is per event. -/
structure Registration where
  participant : Nat
  rstatus : RStatus
  isActive : Bool
deriving DecidableEq, Repr

/-- Combined state: one event document plus its ledger entries. -/
structure SysState where
  ev : Event
  ledger : List Registration
deriving DecidableEq, Repr

/-- Error outcomes of the registration route handlers. -/
inductive RegErr
  | notFound
  | eventFull
  | registrationClosed
  | alreadyRegistered
  | cannotRegister
  | notRegistered
  | missingEventId
deriving DecidableEq, Repr

/-- Virtual isRegistrationOpen: now strictly before the registration deadline
and the stored status is exactly Live. -/
def isRegistrationOpen (now : Int) (e : Event) : Bool :=
  decide (now < e.registrationDeadline) && decide (e.status = EvStatus.Live)

/-- Method canUserRegister: no roster entry for this user (any status), the
registration window is open, and the event is not full. -/
def canUserRegister (now : Int) (e : Event) (u : Nat) : Bool :=
  match e.participants.find? (fun p => p.userId == u) with
  | some _ => false
  | none =>
    if !isRegistrationOpen now e then false
    else if decide (0 < e.maxParticipants)
         && decide ((e.maxParticipants : Int) ≤ e.currentParticipants) then false
    else true

/-- Handler body of POST /api/events/:id/register, past the middleware's
parameter guard: canUserRegister gates the request (all failures surface as
one generic 400) and registerUser appends a registered roster entry and
increments currentParticipants and registrations.  The full endpoint,
parameter guard included, is postEventRegister below; on the real route the
guard always fires first, so this body is unreachable. -/
def rosterRegister (now : Int) (s : SysState) (u : Nat) : Except RegErr SysState :=
  if canUserRegister now s.ev u then
    Except.ok { s with ev := { s.ev with
      participants := s.ev.participants ++ [⟨u, PStatus.registered, false⟩],
      currentParticipants := s.ev.currentParticipants + 1,
      registrations := s.ev.registrations + 1 } }
  else Except.error RegErr.cannotRegister

/-- Handler body of POST /api/events/:id/unregister, past the middleware's
parameter guard: a roster entry (any status) is required, then the user is
filtered out of the roster and currentParticipants and registrations are
decremented with no floor.  The full endpoint, parameter guard included, is
postEventUnregister below; on the real route the guard always fires first,
so this body is unreachable. -/
def rosterUnregister (s : SysState) (u : Nat) : Except RegErr SysState :=
  match s.ev.participants.find? (fun p => p.userId == u) with
  | none => Except.error RegErr.notRegistered
  | some _ =>
    Except.ok { s with ev := { s.ev with
      participants := s.ev.participants.filter (fun p => !(p.userId == u)),
      currentParticipants := s.ev.currentParticipants - 1,
      registrations := s.ev.registrations - 1 } }

/-- Flip the first roster entry of the given user to attended and set its
attendance flag. -/
def markFirst (u : Nat) : List RosterEntry → List RosterEntry
  | [] => []
  | p :: ps =>
    if p.userId == u then
      { p with pstatus := PStatus.attended, attendanceMarked := true } :: ps
    else p :: markFirst u ps

/-- Method markAttendance: the found roster entry is marked attended and the
cumulative attendance counter is incremented; currentParticipants is not
touched. -/
def markAttendance (s : SysState) (u : Nat) : Except RegErr SysState :=
  match s.ev.participants.find? (fun p => p.userId == u) with
  | none => Except.error RegErr.notRegistered
  | some _ =>
    Except.ok { s with ev := { s.ev with
      participants := markFirst u s.ev.participants,
      attendance := s.ev.attendance + 1 } }

/-- Route parameters as Express binds them for a request: the /:id routes of
the events router set id and leave eventId unset (these routers do not merge
parent parameters). -/
structure RouteParams where
  id : Option Nat
  eventId : Option Nat
deriving DecidableEq, Repr

/-- The parameter binding produced by a /api/events/:id/... route: the id
segment is bound, eventId is not. -/
def eventIdRoute (eid : Nat) : RouteParams := ⟨some eid, none⟩

/-- POST /api/events/:id/register as the program serves it: the
canParticipateInEvent middleware first destructures eventId from req.params
and answers 400 Event ID required when it is absent; only past that guard do
the canUserRegister check and registerUser run.  The route binds id, not
eventId, so on every real request the guard fires. -/
def postEventRegister (now : Int) (s : SysState) (ps : RouteParams) (u : Nat) :
    Except RegErr SysState :=
  match ps.eventId with
  | none => Except.error RegErr.missingEventId
  | some _ => rosterRegister now s u

/-- POST /api/events/:id/unregister as the program serves it: the
isRegisteredForEvent middleware destructures eventId from req.params and
answers 400 when it is absent; the route binds id, not eventId, so on every
real request the guard fires before the roster removal and the unfloored
decrement could run. -/
def postEventUnregister (s : SysState) (ps : RouteParams) (u : Nat) :
    Except RegErr SysState :=
  match ps.eventId with
  | none => Except.error RegErr.missingEventId
  | some _ => rosterUnregister s u

/-- POST /api/registrations: checks, in this order, event present and active,
event full, deadline passed, duplicate ledger entry (regardless of isActive);
on success it creates a pending ledger entry and increments
currentParticipants without writing to the roster. -/
def ledgerRegister (now : Int) (s : SysState) (u : Nat) : Except RegErr SysState :=
  if !s.ev.isActive then Except.error RegErr.notFound
  else if decide (0 < s.ev.maxParticipants)
       && decide ((s.ev.maxParticipants : Int) ≤ s.ev.currentParticipants) then
    Except.error RegErr.eventFull
  else if decide (s.ev.registrationDeadline < now) then
    Except.error RegErr.registrationClosed
  else if (s.ledger.find? (fun r => r.participant == u)).isSome then
    Except.error RegErr.alreadyRegistered
  else
    Except.ok { ev := { s.ev with currentParticipants := s.ev.currentParticipants + 1 },
                ledger := ⟨u, RStatus.pending, true⟩ :: s.ledger }

/-- Replace the status of the first ledger entry of the given participant,
returning the old status together with the updated list. -/
def updLedger (u : Nat) (st : RStatus) : List Registration → Option (RStatus × List Registration)
  | [] => none
  | r :: rs =>
    if r.participant == u then some (r.rstatus, { r with rstatus := st } :: rs)
    else
      match updLedger u st rs with
      | some (old, rs') => some (old, r :: rs')
      | none => none

/-- PUT /api/registrations/:id/status: write the new ledger status; when it
actually changed, adjust currentParticipants: leaving confirmed decrements
with a floor at 0, entering confirmed increments. -/
def updateRegistrationStatus (s : SysState) (u : Nat) (st : RStatus) :
    Except RegErr SysState :=
  match updLedger u st s.ledger with
  | none => Except.error RegErr.notFound
  | some (old, ledger') =>
    let cp := s.ev.currentParticipants
    let cp' :=
      if old ≠ st then
        if old = RStatus.confirmed ∧ st ≠ RStatus.confirmed then max 0 (cp - 1)
        else if old ≠ RStatus.confirmed ∧ st = RStatus.confirmed then cp + 1
        else cp
      else cp
    Except.ok { ev := { s.ev with currentParticipants := cp' }, ledger := ledger' }

/-- Soft-deactivate the first ledger entry of a participant, returning its
status together with the updated list. -/
def deactivateLedger (u : Nat) : List Registration → Option (RStatus × List Registration)
  | [] => none
  | r :: rs =>
    if r.participant == u then some (r.rstatus, { r with isActive := false } :: rs)
    else
      match deactivateLedger u rs with
      | some (old, rs') => some (old, r :: rs')
      | none => none

/-- DELETE /api/registrations/:id: decrement currentParticipants (floored at
0) only when the entry is confirmed, then soft-delete it by clearing
isActive; the entry and its status stay in the collection.  The handler's
already-started guard compares now to an event field the schema does not
define, so it never rejects. -/
def ledgerCancel (s : SysState) (u : Nat) : Except RegErr SysState :=
  match deactivateLedger u s.ledger with
  | none => Except.error RegErr.notFound
  | some (old, ledger') =>
    let cp' :=
      if old = RStatus.confirmed then max 0 (s.ev.currentParticipants - 1)
      else s.ev.currentParticipants
    Except.ok { ev := { s.ev with currentParticipants := cp' }, ledger := ledger' }

/-- Status recomputation in the GET /api/events listing: Past when the end
has passed, Upcoming when the start is still ahead, Live when now lies inside
the window, otherwise the stored status is kept. -/
def derivePhase (now : Int) (e : Event) : EvStatus :=
  if e.endDate < now then EvStatus.Past
  else if now < e.startDate then EvStatus.Upcoming
  else if e.startDate ≤ now ∧ now ≤ e.endDate then EvStatus.Live
  else e.status

/-- Result of a read endpoint. -/
inductive ReadResult (α : Type)
  | notFound
  | ok (a : α)
deriving DecidableEq, Repr

/-- GET /api/events/:id: 404 when missing, 404 when isActive is false,
otherwise the event is returned. -/
def getEventById (db : Option Event) : ReadResult Event :=
  match db with
  | none => ReadResult.notFound
  | some e => if !e.isActive then ReadResult.notFound else ReadResult.ok e

/-- GET /api/events/:id/participants: 404 only when the event is missing; the
handler performs no isActive check, so the roster of a soft-deleted event is
returned. -/
def getEventParticipants (db : Option Event) : ReadResult (List RosterEntry) :=
  match db with
  | none => ReadResult.notFound
  | some e => ReadResult.ok e.participants

/-- The isActive filter that the GET /api/events listing query always
includes. -/
def listActiveEvents (db : List Event) : List Event :=
  db.filter (fun e => e.isActive)

/-- Handler-body transitions, taken past each route's parameter guard: both
register paths, the roster unregister and the ledger status update. -/
inductive Op
  | rreg (now : Int) (u : Nat)
  | runreg (u : Nat)
  | lreg (now : Int) (u : Nat)
  | lupd (u : Nat) (st : RStatus)

/-- Run one handler body; a rejected request leaves the stored state
unchanged. -/
def applyOp (s : SysState) : Op → SysState
  | Op.rreg now u =>
    match rosterRegister now s u with
    | Except.ok s' => s'
    | Except.error _ => s
  | Op.runreg u =>
    match rosterUnregister s u with
    | Except.ok s' => s'
    | Except.error _ => s
  | Op.lreg now u =>
    match ledgerRegister now s u with
    | Except.ok s' => s'
    | Except.error _ => s
  | Op.lupd u st =>
    match updateRegistrationStatus s u st with
    | Except.ok s' => s'
    | Except.error _ => s

/-- Run a sequence of requests from left to right. -/
def runOps (s : SysState) : List Op → SysState
  | [] => s
  | op :: ops => runOps (applyOp s op) ops

/-- The requests of the sequence claims as the program serves them: the two
roster-path endpoints carrying the /:id route binding, the ledger register,
the ledger status update and the ledger cancellation. -/
inductive ReqOp
  | rreg (now : Int) (eid u : Nat)
  | runreg (eid u : Nat)
  | lreg (now : Int) (u : Nat)
  | lupd (u : Nat) (st : RStatus)
  | lcancel (u : Nat)

/-- Serve one request; a rejected request leaves the stored state
unchanged. -/
def applyReqOp (s : SysState) : ReqOp → SysState
  | ReqOp.rreg now eid u =>
    match postEventRegister now s (eventIdRoute eid) u with
    | Except.ok s' => s'
    | Except.error _ => s
  | ReqOp.runreg eid u =>
    match postEventUnregister s (eventIdRoute eid) u with
    | Except.ok s' => s'
    | Except.error _ => s
  | ReqOp.lreg now u =>
    match ledgerRegister now s u with
    | Except.ok s' => s'
    | Except.error _ => s
  | ReqOp.lupd u st =>
    match updateRegistrationStatus s u st with
    | Except.ok s' => s'
    | Except.error _ => s
  | ReqOp.lcancel u =>
    match ledgerCancel s u with
    | Except.ok s' => s'
    | Except.error _ => s

/-- Serve a sequence of requests from left to right. -/
def runReqOps (s : SysState) : List ReqOp → SysState
  | [] => s
  | op :: ops => runReqOps (applyReqOp s op) ops

/-- The roster-path operations only (embedded roster and its counters). -/
inductive RosterOp
  | reg (now : Int) (u : Nat)
  | unreg (u : Nat)
  | mark (u : Nat)

/-- Run one roster-path handler; a rejected request changes nothing. -/
def applyRosterOp (s : SysState) : RosterOp → SysState
  | RosterOp.reg now u =>
    match rosterRegister now s u with
    | Except.ok s' => s'
    | Except.error _ => s
  | RosterOp.unreg u =>
    match rosterUnregister s u with
    | Except.ok s' => s'
    | Except.error _ => s
  | RosterOp.mark u =>
    match markAttendance s u with
    | Except.ok s' => s'
    | Except.error _ => s

/-- Run a sequence of roster-path requests from left to right. -/
def runRosterOps (s : SysState) : List RosterOp → SysState
  | [] => s
  | op :: ops => runRosterOps (applyRosterOp s op) ops

/-- Number of roster entries whose status is not cancelled. -/
def activeRosterCount (e : Event) : Nat :=
  e.participants.countP (fun p => decide (¬ p.pstatus = PStatus.cancelled))

/-- Run all ledger registrations of a list of users, aborting on any
error. -/
def registerAll (now : Int) : SysState → List Nat → Option SysState
  | s, [] => some s
  | s, u :: us =>
    match ledgerRegister now s u with
    | Except.ok s' => registerAll now s' us
    | Except.error _ => none

/-- A freshly created open event: unlimited capacity, Live, active, empty
roster, counter at its schema default 0. -/
def cleanEvent : Event :=
  { maxParticipants := 0, currentParticipants := 0, registrations := 0,
    attendance := 0, startDate := 100, endDate := 200,
    registrationDeadline := 50, status := EvStatus.Live, isActive := true,
    participants := [] }

/-- A fresh system state around the clean event with an empty ledger. -/
def cleanState : SysState := ⟨cleanEvent, []⟩

/-- A drifted state: the counter is already zero while a roster entry for
user 7 remains. -/
def driftState : SysState :=
  ⟨{ cleanEvent with participants := [⟨7, PStatus.registered, false⟩] }, []⟩

/-- The state produced by a ledger registration of user 4 on the clean
event. -/
def pendingState : SysState :=
  ⟨{ cleanEvent with currentParticipants := 1 }, [⟨4, RStatus.pending, true⟩]⟩

/-- The state after the ledger registration of user 4 was cancelled
(soft-deleted). -/
def cancelledState : SysState :=
  ⟨{ cleanEvent with currentParticipants := 1 }, [⟨4, RStatus.pending, false⟩]⟩

/-- The clean event with stored lifecycle status Upcoming. -/
def upcomingState : SysState :=
  ⟨{ cleanEvent with status := EvStatus.Upcoming }, []⟩

/-- An event that is simultaneously past its deadline and at capacity. -/
def fullLateState : SysState :=
  ⟨{ cleanEvent with maxParticipants := 1, currentParticipants := 1, registrationDeadline := 0 }, []⟩

/-- A soft-deleted event that still has one roster entry. -/
def inactiveEvent : Event :=
  { cleanEvent with isActive := false, participants := [⟨3, PStatus.registered, false⟩] }

/-- An event whose start, end and the probe instant all coincide. -/
def boundaryEvent : Event :=
  { cleanEvent with startDate := 0, endDate := 0 }

/-- A state where user 7 has both a roster entry and an active ledger
entry. -/
def dualState : SysState :=
  ⟨{ cleanEvent with participants := [⟨7, PStatus.registered, false⟩], currentParticipants := 1 },
    [⟨7, RStatus.pending, true⟩]⟩

/-- Synchronisation of the roster-path state: the counter equals the roster
size, no roster entry is cancelled, and every user appears at most once. -/
def rosterSync (s : SysState) : Prop :=
  s.ev.currentParticipants = (s.ev.participants.length : Int) ∧
  (∀ p ∈ s.ev.participants, ¬ p.pstatus = PStatus.cancelled) ∧
  (s.ev.participants.map (fun p => p.userId)).Nodup

theorem markFirst_length (u : Nat) : ∀ l : List RosterEntry,
    (markFirst u l).length = l.length := by
  intro l
  induction l with
  | nil => rfl
  | cons p ps ih => cases h : p.userId == u <;> simp [markFirst, h, ih]

theorem markFirst_map (u : Nat) : ∀ l : List RosterEntry,
    (markFirst u l).map (fun p => p.userId) = l.map (fun p => p.userId) := by
  intro l
  induction l with
  | nil => rfl
  | cons p ps ih => cases h : p.userId == u <;> simp [markFirst, h, ih]

theorem markFirst_mem (u : Nat) : ∀ (l : List RosterEntry) (q : RosterEntry),
    q ∈ markFirst u l → q.pstatus = PStatus.attended ∨ q ∈ l := by
  intro l
  induction l with
  | nil => intro q hq; simp [markFirst] at hq
  | cons p ps ih =>
    intro q hq
    cases h : p.userId == u <;> simp [markFirst, h] at hq
    · rcases hq with hq | hq
      · right; simp [hq]
      · rcases ih q hq with h1 | h1
        · left; exact h1
        · right; simp [h1]
    · rcases hq with hq | hq
      · left; simp [hq]
      · right; simp [hq]

theorem countP_user_one (u : Nat) : ∀ (l : List RosterEntry) (p : RosterEntry),
    (l.map (fun q => q.userId)).Nodup →
    l.find? (fun q => q.userId == u) = some p →
    l.countP (fun q => q.userId == u) = 1 := by
  intro l
  induction l with
  | nil => intro p _ hf; simp at hf
  | cons q rest ih =>
    intro p hnd hf
    simp only [List.map_cons, List.nodup_cons] at hnd
    cases hq : q.userId == u with
    | true =>
      have hrest : rest.countP (fun x => x.userId == u) = 0 := by
        rw [List.countP_eq_zero]
        intro x hx hxq
        apply hnd.1
        have : x.userId = u := by simpa using hxq
        have hqu : q.userId = u := by simpa using hq
        rw [hqu, ← this]
        exact List.mem_map_of_mem (fun y => y.userId) hx
      simp [List.countP_cons, hq, hrest]
    | false =>
      rw [List.find?_cons_of_neg _ (by simp [hq])] at hf
      simp [List.countP_cons, hq, ih p hnd.2 hf]

theorem updLedger_decomp (u : Nat) (st : RStatus) :
    ∀ (l : List Registration) (old : RStatus) (l' : List Registration),
    updLedger u st l = some (old, l') →
    ∃ l1 r l2, l = l1 ++ r :: l2 ∧ (r.participant == u) = true ∧
      old = r.rstatus ∧ l' = l1 ++ { r with rstatus := st } :: l2 ∧
      ∀ q ∈ l1, (q.participant == u) = false := by
  intro l
  induction l with
  | nil => intro old l' h; simp [updLedger] at h
  | cons r rs ih =>
    intro old l' h
    cases hr : r.participant == u with
    | true =>
      simp [updLedger, hr] at h
      exact ⟨[], r, rs, by simp, hr, h.1.symm, by simp [h.2.symm], by simp⟩
    | false =>
      simp only [updLedger, hr] at h
      cases hrec : updLedger u st rs with
      | none => rw [hrec] at h; simp at h
      | some p =>
        rw [hrec] at h
        simp at h
        obtain ⟨l1, r', l2, he, hru, hold, hl', hl1⟩ := ih p.1 p.2 (by rw [hrec])
        refine ⟨r :: l1, r', l2, by simp [he], hru, by rw [← h.1, hold], ?_, ?_⟩
        · simp only [← h.2, hl', List.cons_append]
        · intro q hq
          rcases List.mem_cons.mp hq with hq | hq
          · rw [hq]; exact hr
          · exact hl1 q hq

theorem updLedger_of_find? (u : Nat) (st : RStatus) :
    ∀ (l : List Registration) (r : Registration),
    l.find? (fun q => q.participant == u) = some r →
    ∃ l', updLedger u st l = some (r.rstatus, l') ∧
      l'.find? (fun q => q.participant == u) = some { r with rstatus := st } := by
  intro l
  induction l with
  | nil => intro r h; simp at h
  | cons q rest ih =>
    intro r hf
    cases hq : q.participant == u with
    | true =>
      rw [List.find?_cons_of_pos (p := fun x => x.participant == u) rest hq] at hf
      have hr : q = r := by simpa using hf
      subst hr
      exact ⟨{ q with rstatus := st } :: rest, by simp [updLedger, hq],
        List.find?_cons_of_pos _ (by simpa using hq)⟩
    | false =>
      rw [List.find?_cons_of_neg _ (by simp [hq])] at hf
      obtain ⟨l', hupd, hfind⟩ := ih r hf
      refine ⟨q :: l', ?_, ?_⟩
      · simp [updLedger, hq, hupd]
      · rw [List.find?_cons_of_neg _ (by simp [hq])]
        exact hfind

theorem deactivateLedger_of_find? (u : Nat) :
    ∀ (l : List Registration) (r : Registration),
    l.find? (fun q => q.participant == u) = some r →
    ∃ l', deactivateLedger u l = some (r.rstatus, l') ∧
      l'.find? (fun q => q.participant == u) = some { r with isActive := false } := by
  intro l
  induction l with
  | nil => intro r h; simp at h
  | cons q rest ih =>
    intro r hf
    cases hq : q.participant == u with
    | true =>
      rw [List.find?_cons_of_pos (p := fun x => x.participant == u) rest hq] at hf
      have hr : q = r := by simpa using hf
      subst hr
      exact ⟨{ q with isActive := false } :: rest, by simp [deactivateLedger, hq],
        List.find?_cons_of_pos _ (by simpa using hq)⟩
    | false =>
      rw [List.find?_cons_of_neg _ (by simp [hq])] at hf
      obtain ⟨l', hupd, hfind⟩ := ih r hf
      refine ⟨q :: l', ?_, ?_⟩
      · simp [deactivateLedger, hq, hupd]
      · rw [List.find?_cons_of_neg _ (by simp [hq])]
        exact hfind

theorem canUserRegister_eq_true (now : Int) (e : Event) (u : Nat) :
    canUserRegister now e u = true ↔
      e.participants.find? (fun p => p.userId == u) = none ∧
      now < e.registrationDeadline ∧ e.status = EvStatus.Live ∧
      (e.maxParticipants = 0 ∨ e.currentParticipants < (e.maxParticipants : Int)) := by
  unfold canUserRegister isRegistrationOpen
  cases hf : e.participants.find? (fun p => p.userId == u) with
  | some p => simp
  | none =>
    simp only [true_and, Bool.not_eq_true']
    constructor
    · intro h
      by_cases h1 : now < e.registrationDeadline
      · by_cases h2 : e.status = EvStatus.Live
        · refine ⟨h1, h2, ?_⟩
          by_cases h3 : 0 < e.maxParticipants
          · right
            by_contra hc
            push_neg at hc
            simp [h1, h2, h3, hc] at h
          · left; omega
        · simp [h2] at h
      · simp [h1] at h
    · rintro ⟨h1, h2, h3⟩
      have hfull : (decide (0 < e.maxParticipants)
          && decide ((e.maxParticipants : Int) ≤ e.currentParticipants)) = false := by
        rcases h3 with hm | hm
        · simp [hm]
        · have hc : ¬ ((e.maxParticipants : Int) ≤ e.currentParticipants) := by omega
          simp [hc]
      simp [h1, h2, hfull]

theorem countP_split {α : Type} (l : List α) (q : α → Bool) :
    (l.filter (fun a => !(q a))).length + l.countP q = l.length := by
  induction l with
  | nil => rfl
  | cons a l ih => cases h : q a <;> simp [List.filter_cons, List.countP_cons, h] <;> omega

theorem countP_pos_of_find? {α : Type} (l : List α) (q : α → Bool) (a : α)
    (h : l.find? q = some a) : 0 < l.countP q :=
  List.countP_pos_iff.mpr ⟨a, List.mem_of_find?_eq_some h, List.find?_some h⟩

theorem rosterSync_applyRosterOp (s : SysState) (op : RosterOp) (h : rosterSync s) :
    rosterSync (applyRosterOp s op) := by
  obtain ⟨hcp, hst, hnd⟩ := h
  cases op with
  | reg now u =>
    cases hc : canUserRegister now s.ev u
    · have hres : applyRosterOp s (RosterOp.reg now u) = s := by
        simp [applyRosterOp, rosterRegister, hc]
      rw [hres]
      exact ⟨hcp, hst, hnd⟩
    · have hres : applyRosterOp s (RosterOp.reg now u) =
          ⟨{ s.ev with
              participants := s.ev.participants ++ [⟨u, PStatus.registered, false⟩],
              currentParticipants := s.ev.currentParticipants + 1,
              registrations := s.ev.registrations + 1 }, s.ledger⟩ := by
        simp [applyRosterOp, rosterRegister, hc]
      rw [hres]
      have hfind := ((canUserRegister_eq_true now s.ev u).mp hc).1
      have hnotin : ¬ u ∈ s.ev.participants.map (fun p => p.userId) := by
        intro hmem
        obtain ⟨p, hp, hpu⟩ := List.mem_map.mp hmem
        have := List.find?_eq_none.mp hfind p hp
        simp [hpu] at this
      refine ⟨?_, ?_, ?_⟩
      · simp only [List.length_append, List.length_cons, List.length_nil]
        omega
      · intro p hp
        simp only [List.mem_append, List.mem_singleton] at hp
        rcases hp with hp | hp
        · exact hst p hp
        · simp [hp]
      · simp only [List.map_append, List.map_cons, List.map_nil]
        rw [List.nodup_append]
        exact ⟨hnd, by simp, by simpa using fun hmem => hnotin hmem⟩
  | unreg u =>
    cases hf : s.ev.participants.find? (fun p => p.userId == u) with
    | none =>
      have hres : applyRosterOp s (RosterOp.unreg u) = s := by
        simp [applyRosterOp, rosterUnregister, hf]
      rw [hres]
      exact ⟨hcp, hst, hnd⟩
    | some p =>
      have hres : applyRosterOp s (RosterOp.unreg u) =
          ⟨{ s.ev with
              participants := s.ev.participants.filter (fun p => !(p.userId == u)),
              currentParticipants := s.ev.currentParticipants - 1,
              registrations := s.ev.registrations - 1 }, s.ledger⟩ := by
        simp [applyRosterOp, rosterUnregister, hf]
      rw [hres]
      have hone := countP_user_one u s.ev.participants p hnd hf
      have hsplit := countP_split s.ev.participants (fun p => p.userId == u)
      refine ⟨?_, ?_, ?_⟩
      · simp only []
        omega
      · intro q hq
        exact hst q (List.mem_of_mem_filter hq)
      · exact List.Nodup.sublist ((List.filter_sublist _).map _) hnd
  | mark u =>
    cases hf : s.ev.participants.find? (fun p => p.userId == u) with
    | none =>
      have hres : applyRosterOp s (RosterOp.mark u) = s := by
        simp [applyRosterOp, markAttendance, hf]
      rw [hres]
      exact ⟨hcp, hst, hnd⟩
    | some p =>
      have hres : applyRosterOp s (RosterOp.mark u) =
          ⟨{ s.ev with
              participants := markFirst u s.ev.participants,
              attendance := s.ev.attendance + 1 }, s.ledger⟩ := by
        simp [applyRosterOp, markAttendance, hf]
      rw [hres]
      refine ⟨?_, ?_, ?_⟩
      · simp [markFirst_length, hcp]
      · intro q hq
        rcases markFirst_mem u s.ev.participants q hq with h1 | h1
        · simp [h1]
        · exact hst q h1
      · rw [markFirst_map]
        exact hnd

theorem rosterSync_runRosterOps (ops : List RosterOp) : ∀ s : SysState, rosterSync s →
    rosterSync (runRosterOps s ops) := by
  induction ops with
  | nil => intro s h; exact h
  | cons op ops ih => intro s h; exact ih (applyRosterOp s op) (rosterSync_applyRosterOp s op h)

/-- Every request to the modeled endpoints keeps a non-negative counter
non-negative: the roster-path endpoints reject before touching the event and
every reachable decrement is floored at 0. -/
theorem applyReqOp_nonneg (s : SysState) (op : ReqOp)
    (h : 0 ≤ s.ev.currentParticipants) :
    0 ≤ (applyReqOp s op).ev.currentParticipants := by
  cases op with
  | rreg now eid u => exact h
  | runreg eid u => exact h
  | lreg now u =>
    simp only [applyReqOp, ledgerRegister]
    split_ifs <;> try exact h
    show 0 ≤ s.ev.currentParticipants + 1
    omega
  | lupd u st =>
    simp only [applyReqOp, updateRegistrationStatus]
    cases hu : updLedger u st s.ledger with
    | none => exact h
    | some p =>
      obtain ⟨old, l'⟩ := p
      show 0 ≤ (if old ≠ st then
          if old = RStatus.confirmed ∧ st ≠ RStatus.confirmed then
            max 0 (s.ev.currentParticipants - 1)
          else if old ≠ RStatus.confirmed ∧ st = RStatus.confirmed then
            s.ev.currentParticipants + 1
          else s.ev.currentParticipants
        else s.ev.currentParticipants)
      split_ifs <;> omega
  | lcancel u =>
    simp only [applyReqOp, ledgerCancel]
    cases hd : deactivateLedger u s.ledger with
    | none => exact h
    | some p =>
      obtain ⟨old, l'⟩ := p
      show 0 ≤ (if old = RStatus.confirmed then
          max 0 (s.ev.currentParticipants - 1)
        else s.ev.currentParticipants)
      split_ifs <;> omega

/-- C1: from any state whose counter is zero, every sequence of requests to
the register, unregister and status-update endpoints keeps
currentParticipants non-negative.  The two roster-path endpoints reject
every request before touching the event, because their middleware reads an
eventId route parameter the /:id routes never bind, and every reachable
decrement is floored at 0; in particular an unregister issued while the
counter is already zero leaves it at zero. -/
theorem c1_nonneg (s : SysState) (hcp : s.ev.currentParticipants = 0)
    (ops : List ReqOp) : 0 ≤ (runReqOps s ops).ev.currentParticipants := by
  have h : ∀ (l : List ReqOp) (t : SysState), 0 ≤ t.ev.currentParticipants →
      0 ≤ (runReqOps t l).ev.currentParticipants := by
    intro l
    induction l with
    | nil => intro t ht; exact ht
    | cons op l ih =>
      intro t ht
      exact ih (applyReqOp t op) (applyReqOp_nonneg t op ht)
  exact h ops s (by omega)

/-- Witness for C1: from the drifted state, whose counter is zero while a
roster entry for user 7 remains, an unregister at zero followed by a ledger
register, a confirm, a reject and a cancel leaves the counter
non-negative. -/
theorem c1_nonneg_witness :
    0 ≤ (runReqOps driftState
      [ReqOp.runreg 1 7, ReqOp.lreg 0 7, ReqOp.lupd 7 RStatus.confirmed,
        ReqOp.lupd 7 RStatus.rejected, ReqOp.lcancel 7]).ev.currentParticipants :=
  c1_nonneg driftState (by decide)
    [ReqOp.runreg 1 7, ReqOp.lreg 0 7, ReqOp.lupd 7 RStatus.confirmed,
      ReqOp.lupd 7 RStatus.rejected, ReqOp.lcancel 7]

/-- C2: starting from a synchronised state, a single ledger-path register
call (POST /api/registrations) raises the counter to 1 while the roster stays
empty, so currentParticipants no longer equals the count of non-cancelled
roster entries. -/
theorem c2_counterexample :
    cleanState.ev.currentParticipants = (activeRosterCount cleanState.ev : Int) ∧
    (runOps cleanState [Op.lreg 0 3]).ev.currentParticipants = 1 ∧
    activeRosterCount (runOps cleanState [Op.lreg 0 3]).ev = 0 := by
  decide

/-- C2 amended: over the roster-path operations (register, unregister,
markAttendance) from a fresh event, currentParticipants always equals the
number of non-cancelled roster entries; the ledger-path operations break this
equality. -/
theorem c2_amended_roster_invariant (ev : Event)
    (hcp : ev.currentParticipants = 0) (hro : ev.participants = [])
    (lg : List Registration) (ops : List RosterOp) :
    (runRosterOps ⟨ev, lg⟩ ops).ev.currentParticipants
      = (activeRosterCount (runRosterOps ⟨ev, lg⟩ ops).ev : Int) := by
  have h0 : rosterSync ⟨ev, lg⟩ :=
    ⟨by simp [hcp, hro], by simp [hro], by simp [hro]⟩
  obtain ⟨hcp', hst', hnd'⟩ := rosterSync_runRosterOps ops ⟨ev, lg⟩ h0
  have hcount : (runRosterOps ⟨ev, lg⟩ ops).ev.participants.countP
      (fun p => decide (¬ p.pstatus = PStatus.cancelled))
      = (runRosterOps ⟨ev, lg⟩ ops).ev.participants.length :=
    List.countP_eq_length.mpr (fun p hp => by simpa using hst' p hp)
  rw [hcp']
  unfold activeRosterCount
  rw [hcount]

/-- Witness for C2 amended: register, mark attendance and unregister user 1
on the clean event; the counter and the active roster count agree. -/
theorem c2_witness :
    (runRosterOps ⟨cleanEvent, []⟩ [RosterOp.reg 0 1, RosterOp.mark 1, RosterOp.unreg 1]).ev.currentParticipants
      = (activeRosterCount (runRosterOps ⟨cleanEvent, []⟩
          [RosterOp.reg 0 1, RosterOp.mark 1, RosterOp.unreg 1]).ev : Int) :=
  c2_amended_roster_invariant cleanEvent (by decide) (by decide) []
    [RosterOp.reg 0 1, RosterOp.mark 1, RosterOp.unreg 1]

/-- C3: on the ledger path of an open, non-full, active event, the sequence
register, cancel, register for user 4 fails at the third step with
AlreadyRegistered, because cancellation only clears isActive and the
duplicate check ignores that flag; the claim is false as stated. -/
theorem c3_counterexample :
    cleanState.ev.isActive = true ∧
    cleanState.ev.maxParticipants = 0 ∧
    (0 : Int) < cleanState.ev.registrationDeadline ∧
    ledgerRegister 0 cleanState 4 = Except.ok pendingState ∧
    ledgerCancel pendingState 4 = Except.ok cancelledState ∧
    ledgerRegister 0 cancelledState 4 = Except.error RegErr.alreadyRegistered :=
  ⟨rfl, rfl, by decide, rfl, rfl, rfl⟩

/-- C3 amended: the register-unregister-register sequence never succeeds at
all three steps.  The roster-path endpoints reject every request with 400
before any event logic, because their middleware reads an eventId parameter
the /:id routes do not bind; on the ledger path the first register and the
cancellation succeed, but the counter stays one above its pre-sequence value
(cancelling a pending registration does not decrement) and the re-register
fails with AlreadyRegistered, since cancellation only clears isActive and
the duplicate check matches the soft-deleted entry. -/
theorem c3_amended_no_roundtrip (now now' : Int) (s : SysState) (u eid : Nat)
    (hA : s.ev.isActive = true)
    (hdl : now ≤ s.ev.registrationDeadline)
    (hdl' : now' ≤ s.ev.registrationDeadline)
    (hfull : s.ev.maxParticipants = 0 ∨
      s.ev.currentParticipants + 1 < (s.ev.maxParticipants : Int))
    (hnew : s.ledger.find? (fun r => r.participant == u) = none) :
    postEventRegister now s (eventIdRoute eid) u = Except.error RegErr.missingEventId ∧
    postEventUnregister s (eventIdRoute eid) u = Except.error RegErr.missingEventId ∧
    ∃ s1 s2,
      ledgerRegister now s u = Except.ok s1 ∧
      ledgerCancel s1 u = Except.ok s2 ∧
      s2.ev.currentParticipants = s.ev.currentParticipants + 1 ∧
      ledgerRegister now' s2 u = Except.error RegErr.alreadyRegistered := by
  refine ⟨rfl, rfl, ?_⟩
  have hfb : (decide (0 < s.ev.maxParticipants)
      && decide ((s.ev.maxParticipants : Int) ≤ s.ev.currentParticipants)) = false := by
    rcases hfull with hm | hm
    · simp [hm]
    · have hc : ¬ ((s.ev.maxParticipants : Int) ≤ s.ev.currentParticipants) := by omega
      simp [hc]
  have hd : decide (s.ev.registrationDeadline < now) = false := by
    simp
    omega
  have h1 : ledgerRegister now s u = Except.ok
      ⟨{ s.ev with currentParticipants := s.ev.currentParticipants + 1 },
        ⟨u, RStatus.pending, true⟩ :: s.ledger⟩ := by
    simp [ledgerRegister, hA, hfb, hd, hnew]
  have h2 : ledgerCancel
      ⟨{ s.ev with currentParticipants := s.ev.currentParticipants + 1 },
        ⟨u, RStatus.pending, true⟩ :: s.ledger⟩ u = Except.ok
      ⟨{ s.ev with currentParticipants := s.ev.currentParticipants + 1 },
        ⟨u, RStatus.pending, false⟩ :: s.ledger⟩ := by
    simp [ledgerCancel, deactivateLedger]
  have hfb' : (decide (0 < s.ev.maxParticipants)
      && decide ((s.ev.maxParticipants : Int) ≤ s.ev.currentParticipants + 1)) = false := by
    rcases hfull with hm | hm
    · simp [hm]
    · have hc : ¬ ((s.ev.maxParticipants : Int) ≤ s.ev.currentParticipants + 1) := by omega
      simp [hc]
  have hd' : decide (s.ev.registrationDeadline < now') = false := by
    simp
    omega
  have h3 : ledgerRegister now'
      ⟨{ s.ev with currentParticipants := s.ev.currentParticipants + 1 },
        ⟨u, RStatus.pending, false⟩ :: s.ledger⟩ u
      = Except.error RegErr.alreadyRegistered := by
    simp [ledgerRegister, hA, hfb', hd']
  exact ⟨_, _, h1, h2, rfl, h3⟩

/-- Witness for C3 amended: user 11 on the clean open event via a route that
binds id 5; both roster-path calls answer 400, the ledger register and
cancel go through, and the ledger re-register is locked out. -/
theorem c3_lockout_witness :
    postEventRegister 0 cleanState (eventIdRoute 5) 11 = Except.error RegErr.missingEventId ∧
    postEventUnregister cleanState (eventIdRoute 5) 11 = Except.error RegErr.missingEventId ∧
    ∃ s1 s2,
      ledgerRegister 0 cleanState 11 = Except.ok s1 ∧
      ledgerCancel s1 11 = Except.ok s2 ∧
      s2.ev.currentParticipants = cleanState.ev.currentParticipants + 1 ∧
      ledgerRegister 1 s2 11 = Except.error RegErr.alreadyRegistered :=
  c3_amended_no_roundtrip 0 1 cleanState 11 5 (by decide) (by decide) (by decide)
    (Or.inl (by decide)) rfl

/-- C4: on an active Upcoming event with the deadline ahead, unlimited
capacity and an unregistered user, the roster-path register call is refused,
because isRegistrationOpen demands stored status exactly Live; the claim is
false as stated. -/
theorem c4_counterexample :
    upcomingState.ev.isActive = true ∧
    ¬ upcomingState.ev.status = EvStatus.Past ∧
    (0 : Int) ≤ upcomingState.ev.registrationDeadline ∧
    upcomingState.ev.maxParticipants = 0 ∧
    upcomingState.ev.participants = [] ∧
    rosterRegister 0 upcomingState 7 = Except.error RegErr.cannotRegister :=
  ⟨rfl, by decide, by decide, rfl, rfl, rfl⟩

/-- C4 amended: the ledger-path register succeeds on an active, non-full
event whenever now is at or before the deadline regardless of lifecycle
status, while the roster-path register is additionally refused whenever the
stored status is not Live or now is not strictly before the deadline. -/
theorem c4_amended_register_conditions (now : Int) (s : SysState) (u : Nat)
    (hA : s.ev.isActive = true) (hdl : now ≤ s.ev.registrationDeadline)
    (hfull : s.ev.maxParticipants = 0 ∨ s.ev.currentParticipants < (s.ev.maxParticipants : Int))
    (hnew : s.ledger.find? (fun r => r.participant == u) = none) :
    ledgerRegister now s u = Except.ok
      ⟨{ s.ev with currentParticipants := s.ev.currentParticipants + 1 },
        ⟨u, RStatus.pending, true⟩ :: s.ledger⟩ ∧
    (¬ s.ev.status = EvStatus.Live → canUserRegister now s.ev u = false) ∧
    (now = s.ev.registrationDeadline → canUserRegister now s.ev u = false) := by
  refine ⟨?_, ?_, ?_⟩
  · have hf : (decide (0 < s.ev.maxParticipants)
        && decide ((s.ev.maxParticipants : Int) ≤ s.ev.currentParticipants)) = false := by
      rcases hfull with hm | hm
      · simp [hm]
      · have hc : ¬ ((s.ev.maxParticipants : Int) ≤ s.ev.currentParticipants) := by omega
        simp [hc]
    have hd : decide (s.ev.registrationDeadline < now) = false := by
      simp
      omega
    simp [ledgerRegister, hA, hf, hd, hnew]
  · intro hnl
    cases hres : canUserRegister now s.ev u
    · rfl
    · exact absurd ((canUserRegister_eq_true now s.ev u).mp hres).2.2.1 hnl
  · intro heq
    cases hres : canUserRegister now s.ev u
    · rfl
    · have := ((canUserRegister_eq_true now s.ev u).mp hres).2.1
      omega

/-- Witness for C4 amended: the ledger path admits user 7 to the Upcoming
event exactly at the deadline instant, while the roster path refuses. -/
theorem c4_witness :
    ledgerRegister 50 upcomingState 7 = Except.ok
      ⟨{ upcomingState.ev with currentParticipants := upcomingState.ev.currentParticipants + 1 },
        ⟨7, RStatus.pending, true⟩ :: upcomingState.ledger⟩ ∧
    (¬ upcomingState.ev.status = EvStatus.Live → canUserRegister 50 upcomingState.ev 7 = false) ∧
    (50 = upcomingState.ev.registrationDeadline → canUserRegister 50 upcomingState.ev 7 = false) :=
  c4_amended_register_conditions 50 upcomingState 7 (by decide) (by decide)
    (Or.inl (by decide)) (by decide)

/-- C5: an event that is both past its deadline and at capacity yields
EventFull, not RegistrationClosed, because the route checks capacity before
the deadline; the claimed check order is false. -/
theorem c5_counterexample :
    fullLateState.ev.isActive = true ∧
    fullLateState.ev.registrationDeadline < (5 : Int) ∧
    0 < fullLateState.ev.maxParticipants ∧
    (fullLateState.ev.maxParticipants : Int) ≤ fullLateState.ev.currentParticipants ∧
    ledgerRegister 5 fullLateState 2 = Except.error RegErr.eventFull ∧
    ¬ RegErr.eventFull = RegErr.registrationClosed :=
  ⟨rfl, by decide, by decide, by decide, rfl, by decide⟩

/-- C5 amended: on an active full event the register call fails with
EventFull regardless of the deadline or of an existing registration, since
the capacity check runs right after the existence check. -/
theorem c5_amended_full_first (now : Int) (s : SysState) (u : Nat)
    (hA : s.ev.isActive = true) (hm : 0 < s.ev.maxParticipants)
    (hf : (s.ev.maxParticipants : Int) ≤ s.ev.currentParticipants) :
    ledgerRegister now s u = Except.error RegErr.eventFull := by
  simp [ledgerRegister, hA, hm, hf]

/-- Witness for C5 amended: the full, past-deadline event rejects user 2
with EventFull. -/
theorem c5_witness :
    ledgerRegister 5 fullLateState 2 = Except.error RegErr.eventFull :=
  c5_amended_full_first 5 fullLateState 2 (by decide) (by decide) (by decide)

/-- C6: for every probe instant and every event whose start is at or before
its end, the listing-time status derivation yields Past exactly when the end
has passed, Upcoming exactly when the start is ahead, Live exactly when the
instant lies inside the window, and in particular Live when start, now and
end coincide. -/
theorem c6_derivePhase_trichotomy (now : Int) (e : Event)
    (h : e.startDate ≤ e.endDate) :
    (derivePhase now e = EvStatus.Past ↔ e.endDate < now) ∧
    (derivePhase now e = EvStatus.Upcoming ↔ now < e.startDate) ∧
    (derivePhase now e = EvStatus.Live ↔ (e.startDate ≤ now ∧ now ≤ e.endDate)) ∧
    (e.startDate = now → e.endDate = now → derivePhase now e = EvStatus.Live) := by
  unfold derivePhase
  split_ifs with h1 h2 h3
  · refine ⟨?_, ?_, ?_, ?_⟩ <;> simp_all <;> omega
  · refine ⟨?_, ?_, ?_, ?_⟩ <;> simp_all <;> omega
  · refine ⟨?_, ?_, ?_, ?_⟩ <;> simp_all <;> omega
  · exact absurd ⟨by omega, by omega⟩ h3

/-- Witness for C6: the boundary event with start, now and end all equal to
0 is classified Live. -/
theorem c6_witness :
    (derivePhase 0 boundaryEvent = EvStatus.Past ↔ boundaryEvent.endDate < 0) ∧
    (derivePhase 0 boundaryEvent = EvStatus.Upcoming ↔ (0 : Int) < boundaryEvent.startDate) ∧
    (derivePhase 0 boundaryEvent = EvStatus.Live
      ↔ (boundaryEvent.startDate ≤ 0 ∧ (0 : Int) ≤ boundaryEvent.endDate)) ∧
    (boundaryEvent.startDate = 0 → boundaryEvent.endDate = 0 →
      derivePhase 0 boundaryEvent = EvStatus.Live) :=
  c6_derivePhase_trichotomy 0 boundaryEvent (by decide)

/-- Consecutive ledger registrations of pairwise distinct fresh users all
succeed while capacity remains, raising the counter by one per user and
leaving the other event fields unchanged. -/
theorem registerAll_ok (now : Int) : ∀ (us : List Nat) (s : SysState),
    us.Nodup → (∀ u ∈ us, s.ledger.find? (fun r => r.participant == u) = none) →
    s.ev.isActive = true → now ≤ s.ev.registrationDeadline →
    s.ev.currentParticipants + us.length ≤ (s.ev.maxParticipants : Int) →
    ∃ s', registerAll now s us = some s' ∧
      s'.ev.currentParticipants = s.ev.currentParticipants + us.length ∧
      s'.ev.isActive = s.ev.isActive ∧
      s'.ev.maxParticipants = s.ev.maxParticipants := by
  intro us
  induction us with
  | nil =>
    intro s _ _ _ _ _
    exact ⟨s, rfl, by simp, rfl, rfl⟩
  | cons u us ih =>
    intro s hnd hfresh hA hdl hcap
    have hstep : ledgerRegister now s u = Except.ok
        ⟨{ s.ev with currentParticipants := s.ev.currentParticipants + 1 },
          ⟨u, RStatus.pending, true⟩ :: s.ledger⟩ := by
      have hf : (decide (0 < s.ev.maxParticipants)
          && decide ((s.ev.maxParticipants : Int) ≤ s.ev.currentParticipants)) = false := by
        have hlt : ¬ ((s.ev.maxParticipants : Int) ≤ s.ev.currentParticipants) := by
          simp only [List.length_cons] at hcap
          push_cast at hcap
          omega
        simp [hlt]
      have hd : decide (s.ev.registrationDeadline < now) = false := by
        simp
        omega
      have hn : s.ledger.find? (fun r => r.participant == u) = none := hfresh u (by simp)
      simp [ledgerRegister, hA, hf, hd, hn]
    simp only [registerAll, hstep]
    have hnd' : us.Nodup := (List.nodup_cons.mp hnd).2
    have hu : ¬ u ∈ us := (List.nodup_cons.mp hnd).1
    obtain ⟨s', hrun, hcp, hAct, hmax⟩ := ih
      ⟨{ s.ev with currentParticipants := s.ev.currentParticipants + 1 },
        ⟨u, RStatus.pending, true⟩ :: s.ledger⟩
      hnd'
      (by
        intro w hw
        have hne : (u == w) = false := by
          simp only [beq_eq_false_iff_ne]
          intro he
          exact hu (he ▸ hw)
        rw [List.find?_cons_of_neg _ (by simp [hne])]
        exact hfresh w (by simp [hw]))
      hA hdl
      (by
        simp only [List.length_cons] at hcap
        push_cast at hcap ⊢
        omega)
    refine ⟨s', hrun, ?_, hAct, hmax⟩
    rw [hcp]
    simp only [List.length_cons]
    push_cast
    omega

/-- C7: with unlimited capacity the ledger register never fails with
EventFull; with capacity N on a fresh event, N distinct users register
successfully and the next distinct user is rejected with EventFull. -/
theorem c7_capacity :
    (∀ (now : Int) (s : SysState) (u : Nat), s.ev.maxParticipants = 0 →
      ¬ ledgerRegister now s u = Except.error RegErr.eventFull) ∧
    (∀ (N : Nat) (us : List Nat) (v : Nat) (now : Int) (ev : Event),
      0 < N → ev.maxParticipants = N → ev.currentParticipants = 0 →
      ev.isActive = true → now ≤ ev.registrationDeadline →
      us.length = N → us.Nodup → ¬ v ∈ us →
      ∃ s', registerAll now ⟨ev, []⟩ us = some s' ∧
        ledgerRegister now s' v = Except.error RegErr.eventFull) := by
  constructor
  · intro now s u hm
    simp only [ledgerRegister, hm]
    have hz : decide (0 < (0 : Nat)) = false := by decide
    rw [hz]
    simp only [Bool.false_and]
    split_ifs <;> simp_all
  · intro N us v now ev hN hmax hcp hA hdl hlen hnd hv
    obtain ⟨s', hrun, hcp', hA', hmax'⟩ := registerAll_ok now us ⟨ev, []⟩ hnd
      (fun u hu => rfl) hA hdl (by rw [hcp, hlen, hmax]; omega)
    refine ⟨s', hrun, ?_⟩
    have hfull : (decide (0 < s'.ev.maxParticipants)
        && decide ((s'.ev.maxParticipants : Int) ≤ s'.ev.currentParticipants)) = true := by
      have h1 : 0 < s'.ev.maxParticipants := by rw [hmax', hmax]; exact hN
      have h2 : (s'.ev.maxParticipants : Int) ≤ s'.ev.currentParticipants := by
        rw [hmax', hmax, hcp', hcp, hlen]
        omega
      simp [h1, h2]
    have hA2 : s'.ev.isActive = true := by rw [hA', hA]
    simp [ledgerRegister, hA2, hfull]

/-- Witness for C7: the unlimited clean event never returns EventFull for
user 9, and on a two-seat fresh event users 1 and 2 register while user 3 is
rejected with EventFull. -/
theorem c7_witness :
    ¬ ledgerRegister 0 cleanState 9 = Except.error RegErr.eventFull ∧
    ∃ s', registerAll 0 ⟨{ cleanEvent with maxParticipants := 2 }, []⟩ [1, 2] = some s' ∧
      ledgerRegister 0 s' 3 = Except.error RegErr.eventFull :=
  ⟨c7_capacity.1 0 cleanState 9 (by decide),
    c7_capacity.2 2 [1, 2] 3 0 { cleanEvent with maxParticipants := 2 }
      (by decide) (by decide) (by decide) (by decide) (by decide)
      (by decide) (by decide) (by decide)⟩

/-- C8: for a pending ledger entry on an event with a non-negative counter,
moving it to confirmed adds exactly 1 to currentParticipants, a subsequent
move to rejected removes exactly 1, and a direct move from pending to
rejected leaves the counter unchanged. -/
theorem c8_status_transitions (s : SysState) (u : Nat) (r : Registration)
    (hf : s.ledger.find? (fun q => q.participant == u) = some r)
    (hp : r.rstatus = RStatus.pending)
    (hcp : 0 ≤ s.ev.currentParticipants) :
    ∃ s1 s2 s3,
      updateRegistrationStatus s u RStatus.confirmed = Except.ok s1 ∧
      s1.ev.currentParticipants = s.ev.currentParticipants + 1 ∧
      updateRegistrationStatus s1 u RStatus.rejected = Except.ok s2 ∧
      s2.ev.currentParticipants = s.ev.currentParticipants ∧
      updateRegistrationStatus s u RStatus.rejected = Except.ok s3 ∧
      s3.ev.currentParticipants = s.ev.currentParticipants := by
  obtain ⟨l1, hupd1, hfind1⟩ := updLedger_of_find? u RStatus.confirmed s.ledger r hf
  rw [hp] at hupd1
  obtain ⟨l3, hupd3, -⟩ := updLedger_of_find? u RStatus.rejected s.ledger r hf
  rw [hp] at hupd3
  have h1 : updateRegistrationStatus s u RStatus.confirmed = Except.ok
      ⟨{ s.ev with currentParticipants := s.ev.currentParticipants + 1 }, l1⟩ := by
    simp [updateRegistrationStatus, hupd1]
  obtain ⟨l2, hupd2, -⟩ := updLedger_of_find? u RStatus.rejected l1
    ({ r with rstatus := RStatus.confirmed }) hfind1
  have h2 : updateRegistrationStatus
      ⟨{ s.ev with currentParticipants := s.ev.currentParticipants + 1 }, l1⟩
      u RStatus.rejected = Except.ok
      ⟨{ s.ev with currentParticipants := max 0 (s.ev.currentParticipants + 1 - 1) }, l2⟩ := by
    simp [updateRegistrationStatus, hupd2]
  have h3 : updateRegistrationStatus s u RStatus.rejected = Except.ok
      ⟨{ s.ev with currentParticipants := s.ev.currentParticipants }, l3⟩ := by
    simp [updateRegistrationStatus, hupd3]
  refine ⟨_, _, _, h1, rfl, h2, ?_, h3, rfl⟩
  simp only []
  omega

/-- Witness for C8: on the pending registration of user 4, confirm, then
reject, and separately reject directly; the counter moves 1 up, back down,
and stays put. -/
theorem c8_witness :
    ∃ s1 s2 s3,
      updateRegistrationStatus pendingState 4 RStatus.confirmed = Except.ok s1 ∧
      s1.ev.currentParticipants = pendingState.ev.currentParticipants + 1 ∧
      updateRegistrationStatus s1 4 RStatus.rejected = Except.ok s2 ∧
      s2.ev.currentParticipants = pendingState.ev.currentParticipants ∧
      updateRegistrationStatus pendingState 4 RStatus.rejected = Except.ok s3 ∧
      s3.ev.currentParticipants = pendingState.ev.currentParticipants :=
  c8_status_transitions pendingState 4 ⟨4, RStatus.pending, true⟩ (by decide) rfl (by decide)

/-- C9: the soft-deleted event is refused by the id read, yet its roster is
still served by the participants read, which performs no isActive check; the
claim that every read excludes inactive events is false. -/
theorem c9_counterexample :
    inactiveEvent.isActive = false ∧
    getEventById (some inactiveEvent) = ReadResult.notFound ∧
    ¬ getEventParticipants (some inactiveEvent) = ReadResult.notFound := by
  refine ⟨rfl, rfl, ?_⟩
  intro h
  simp [getEventParticipants] at h

/-- C9 amended: the listing filter and the id read exclude inactive events,
but the participants read returns the roster of any stored event, active or
not. -/
theorem c9_amended_read_visibility (db : List Event) :
    (∀ e ∈ listActiveEvents db, e.isActive = true) ∧
    (∀ e : Event, e.isActive = false → getEventById (some e) = ReadResult.notFound) ∧
    (∀ e : Event, getEventParticipants (some e) = ReadResult.ok e.participants) := by
  refine ⟨?_, ?_, ?_⟩
  · intro e he
    exact (List.mem_filter.mp he).2
  · intro e he
    simp [getEventById, he]
  · intro e
    rfl

/-- Witness for C9 amended: the inactive sample event is hidden by the id
read yet its roster is returned by the participants read. -/
theorem c9_witness :
    getEventById (some inactiveEvent) = ReadResult.notFound ∧
    getEventParticipants (some inactiveEvent) = ReadResult.ok inactiveEvent.participants :=
  ⟨(c9_amended_read_visibility []).2.1 inactiveEvent (by decide),
    (c9_amended_read_visibility []).2.2 inactiveEvent⟩

/-- C10: the unregister endpoint never reaches its roster handler: the
isRegisteredForEvent middleware reads an eventId parameter the /:id route
does not bind and rejects every request with 400, so the roster removal and
counter decrement the claim describes never execute; the handler body, had
it run on a user holding both a roster entry and an active ledger entry,
would indeed have left the ledger untouched. -/
theorem c10_param_mismatch :
    postEventUnregister dualState (eventIdRoute 3) 7 = Except.error RegErr.missingEventId ∧
    ∃ s', rosterUnregister dualState 7 = Except.ok s' ∧ s'.ledger = dualState.ledger :=
  ⟨rfl, ⟨_, rfl, rfl⟩⟩

end EventSphere
